import Mathlib

/-!
Verification of the sm-debugger debug-session protocol engine.

The repository has two halves:
  * a TypeScript VSCode client (`src/unnamed/part_000`): message type enum,
    `Message` reader, `readMessages` (length-prefixed stream decoder with an
    accumulation buffer), `sendMessage` (frame writer), and per-command senders;
  * a C++ SourceMod extension (`src/src/debugger.cpp`, first copy, lines
    1-2306): `TcpSession` transport, `DebuggerClient` with `DebugHook`
    (interpreter line callback), `WaitWalkCmd` (rendezvous), `stopDebugging`,
    breakpoint registry, and `RecvCmd` (inbound command dispatcher).

Bytes are modelled as natural numbers below 256 inside `List Nat`; writers
produce bytes via `% 256` exactly where the machine stores into a byte.
32-bit machine integers are `Nat`/`Int` with explicit `% 2^32` where the
code truncates.
-/

namespace SmDebugger

/-! ## Byte-level primitives (Buffer.readUInt32LE / writeUInt32LE etc.) -/

/-- Little-endian 32-bit write, as `Buffer.writeUInt32LE` /
`CUtlBuffer::PutUnsignedInt` store it: four bytes, least significant first. -/
def writeUInt32LE (n : Nat) : List Nat :=
  [n % 256, n / 256 % 256, n / 256 ^ 2 % 256, n / 256 ^ 3 % 256]

/-- Little-endian 32-bit read at the head of a byte list
(`Buffer.readUInt32LE(buf, 0)`).  Missing bytes read as 0 (never exercised
in-bounds). -/
def readUInt32LE (l : List Nat) : Nat :=
  l.getD 0 0 % 256 + l.getD 1 0 % 256 * 256 + l.getD 2 0 % 256 * 256 ^ 2 +
    l.getD 3 0 % 256 * 256 ^ 3

/-- Signed 8-bit reinterpretation of a byte (`Buffer.readInt8`). -/
def readInt8 (b : Nat) : Int :=
  if b % 256 < 128 then ((b % 256 : Nat) : Int) else ((b % 256 : Nat) : Int) - 256

theorem readUInt32LE_writeUInt32LE (n : Nat) (rest : List Nat) :
    readUInt32LE (writeUInt32LE n ++ rest) = n % 2 ^ 32 := by
  simp only [readUInt32LE, writeUInt32LE, List.cons_append, List.getD_cons_zero,
    List.getD_cons_succ]
  omega

/-! ## Message frames

Client writer `sendMessage` (part_000, lines 412-489): header is 4 length
bytes, the type byte at offset 4, and optionally one extra byte at offset 5;
the length field is `fullMessage.length - 4`, i.e. it covers the type byte,
the extra byte and the payload.

Server writer (debugger.cpp, every `CUtlBuffer` emission, e.g. `WaitWalkCmd`
lines 1274-1289): `PutUnsignedInt(0)`, `PutChar(type)`, payload, then the
placeholder is patched with `TellPut() - 5`, i.e. the length field covers the
payload only — it excludes both the length field and the type byte. -/

/-- Bytes contributed by the optional `extraByte` header slot of
`sendMessage`. -/
def extraBytes : Option Nat → List Nat
  | some b => [b % 256]
  | none => []

/-- Header-plus-payload bytes of a client frame: type byte at offset 4,
the optional extra byte at offset 5, then the payload. -/
def clientFrameBody (messageType : Nat) (payload : List Nat)
    (extraByte : Option Nat) : List Nat :=
  messageType % 256 :: extraBytes extraByte ++ payload

/-- Client-side frame bytes produced by `sendMessage(messageType, payload,
extraByte)` (part_000 lines 443-460): the length field is
`fullMessage.length - 4`, i.e. the byte count of the body. -/
def clientFrame (messageType : Nat) (payload : List Nat) (extraByte : Option Nat) :
    List Nat :=
  writeUInt32LE (clientFrameBody messageType payload extraByte).length ++
    clientFrameBody messageType payload extraByte

/-- Server-side frame bytes produced by the `CUtlBuffer` pattern
`PutUnsignedInt(0); PutChar(type); …payload…; *Base() = TellPut() - 5`. -/
def serverFrame (messageType : Nat) (payload : List Nat) : List Nat :=
  writeUInt32LE payload.length ++ (messageType % 256 :: payload)

/-- The value of the 4-byte little-endian length field at the start of a
frame. -/
def lengthField (frame : List Nat) : Nat := readUInt32LE frame

theorem length_clientFrameBody (t : Nat) (payload : List Nat) (e : Option Nat) :
    (clientFrameBody t payload e).length =
      1 + (extraBytes e).length + payload.length := by
  simp [clientFrameBody]
  omega

theorem lengthField_clientFrame (t : Nat) (payload : List Nat) (e : Option Nat)
    (h : 1 + (extraBytes e).length + payload.length < 2 ^ 32) :
    lengthField (clientFrame t payload e) =
      1 + (extraBytes e).length + payload.length := by
  unfold lengthField clientFrame
  rw [readUInt32LE_writeUInt32LE, length_clientFrameBody, Nat.mod_eq_of_lt h]

theorem lengthField_serverFrame (t : Nat) (payload : List Nat)
    (h : payload.length < 2 ^ 32) :
    lengthField (serverFrame t payload) = payload.length := by
  unfold lengthField serverFrame
  rw [readUInt32LE_writeUInt32LE, Nat.mod_eq_of_lt h]

/-! ## The client stream decoder `readMessages` (part_000, lines 194-226)

The decoder keeps an accumulation buffer (`pendingBuffer`); each call appends
the newly received chunk and then repeatedly extracts one message while at
least 5 bytes are buffered and the declared length (`msglen`, read as
payload-only) is fully present, consuming `5 + msglen` bytes per message;
otherwise it stops and keeps the remainder pending. -/

/-- A decoded message: the signed type byte and the `msglen` payload bytes
(what the `Message` object at offset 5 / size `msglen` denotes). -/
structure Msg where
  type : Int
  payload : List Nat
  deriving Repr, DecidableEq

/-- One `readMessages` drain pass over the pending buffer: the extracted
messages plus the remaining (incomplete) bytes. -/
def drain (buf : List Nat) : List Msg × List Nat :=
  if h5 : buf.length < 5 then ([], buf)
  else
    let msglen := readUInt32LE buf
    let msgtype := readInt8 (buf.getD 4 0)
    if hm : msglen ≤ buf.length - 5 then
      let payload := (buf.drop 5).take msglen
      let out := drain (buf.drop (5 + msglen))
      (⟨msgtype, payload⟩ :: out.1, out.2)
    else ([], buf)
termination_by buf.length
decreasing_by
  simp only [List.length_drop]
  omega

/-- Successive `readMessages` calls: each chunk is appended to the pending
buffer and drained; the messages of all calls are concatenated. -/
def feedChunks (pending : List Nat) : List (List Nat) → List Msg × List Nat
  | [] => ([], pending)
  | c :: cs =>
    let out := drain (pending ++ c)
    let rest := feedChunks out.2 cs
    (out.1 ++ rest.1, rest.2)

theorem drain_of_short {buf : List Nat} (h : buf.length < 5) :
    drain buf = ([], buf) := by
  unfold drain
  simp [h]

theorem drain_of_incomplete {buf : List Nat} (h5 : ¬buf.length < 5)
    (hm : ¬readUInt32LE buf ≤ buf.length - 5) :
    drain buf = ([], buf) := by
  unfold drain
  simp [h5, hm]

theorem drain_of_complete {buf : List Nat} (h5 : ¬buf.length < 5)
    (hm : readUInt32LE buf ≤ buf.length - 5) :
    drain buf =
      (⟨readInt8 (buf.getD 4 0), (buf.drop 5).take (readUInt32LE buf)⟩ ::
          (drain (buf.drop (5 + readUInt32LE buf))).1,
        (drain (buf.drop (5 + readUInt32LE buf))).2) := by
  conv_lhs => rw [drain]
  simp [h5, hm]

/-- The pending remainder left by a drain pass holds no complete message:
draining it again extracts nothing. -/
theorem drain_snd_stuck (buf : List Nat) :
    drain (drain buf).2 = ([], (drain buf).2) := by
  induction buf using drain.induct with
  | case1 x h =>
    rw [drain_of_short h]
    exact drain_of_short h
  | case2 x h5 msglen hmle ih =>
    rw [drain_of_complete h5 hmle]
    exact ih
  | case3 x h5 msglen hnot =>
    rw [drain_of_incomplete h5 hnot]
    exact drain_of_incomplete h5 hnot

/-- Incrementality of the decoder: draining `buf ++ b` yields the messages of
`buf` followed by whatever the leftover-plus-`b` yields.  This is the heart of
the partial-delivery contract. -/
theorem drain_append (b : List Nat) : ∀ buf : List Nat,
    drain (buf ++ b) =
      ((drain buf).1 ++ (drain ((drain buf).2 ++ b)).1,
        (drain ((drain buf).2 ++ b)).2) := by
  intro buf
  induction buf using drain.induct with
  | case1 x h =>
    rw [drain_of_short h]
    simp
  | case2 x h5 msglen hmle ih =>
    have hm : readUInt32LE x ≤ x.length - 5 := hmle
    have hx5 : 5 ≤ x.length := Nat.le_of_not_lt h5
    have hlen : ¬(x ++ b).length < 5 := by
      simp only [List.length_append]; omega
    have hread : readUInt32LE (x ++ b) = readUInt32LE x := by
      unfold readUInt32LE
      rw [List.getD_append _ _ _ _ (by omega), List.getD_append _ _ _ _ (by omega),
        List.getD_append _ _ _ _ (by omega), List.getD_append _ _ _ _ (by omega)]
    have hm' : readUInt32LE (x ++ b) ≤ (x ++ b).length - 5 := by
      rw [hread]; simp only [List.length_append]; omega
    have hget4 : (x ++ b).getD 4 0 = x.getD 4 0 :=
      List.getD_append _ _ _ _ (by omega)
    have hdrop5 : (x ++ b).drop 5 = x.drop 5 ++ b :=
      List.drop_append_of_le_length hx5
    have htake : ((x ++ b).drop 5).take (readUInt32LE (x ++ b)) =
        (x.drop 5).take (readUInt32LE x) := by
      rw [hdrop5, hread]
      exact List.take_append_of_le_length (by simp [List.length_drop]; omega)
    have hdroprest : (x ++ b).drop (5 + readUInt32LE (x ++ b)) =
        x.drop (5 + readUInt32LE x) ++ b := by
      rw [hread]
      exact List.drop_append_of_le_length (by omega)
    rw [drain_of_complete hlen hm', drain_of_complete h5 hm, hget4, htake,
      hdroprest, ih]
    simp
  | case3 x h5 msglen hnot =>
    rw [drain_of_incomplete h5 hnot]
    simp

/-- Feeding chunks one by one through `readMessages` is equivalent to feeding
their concatenation at once, provided the initial pending buffer holds no
complete message. -/
theorem feedChunks_eq_drain_flatten :
    ∀ (chunks : List (List Nat)) (pending : List Nat),
      drain pending = ([], pending) →
      feedChunks pending chunks = drain (pending ++ chunks.flatten) := by
  intro chunks
  induction chunks with
  | nil =>
    intro pending hp
    simp [feedChunks, hp.symm]
  | cons c cs ih =>
    intro pending hp
    have hstuck : drain (drain (pending ++ c)).2 = ([], (drain (pending ++ c)).2) :=
      drain_snd_stuck (pending ++ c)
    have h1 : drain (pending ++ (c :: cs).flatten) =
        ((drain (pending ++ c)).1 ++
            (drain ((drain (pending ++ c)).2 ++ cs.flatten)).1,
          (drain ((drain (pending ++ c)).2 ++ cs.flatten)).2) := by
      have := drain_append cs.flatten (pending ++ c)
      simpa [List.append_assoc] using this
    rw [h1]
    simp only [feedChunks]
    rw [ih _ hstuck]

/-- Draining one whole server-framed message extracts exactly that message and
leaves nothing pending. -/
theorem drain_serverFrame_eq (t : Nat) (payload : List Nat) (ht : t < 128)
    (hp : payload.length < 2 ^ 32) :
    drain (serverFrame t payload) = ([⟨(t : Int), payload⟩], []) := by
  have hlen : (serverFrame t payload).length = 5 + payload.length := by
    simp [serverFrame, writeUInt32LE]
    omega
  have h5 : ¬(serverFrame t payload).length < 5 := by omega
  have hread : readUInt32LE (serverFrame t payload) = payload.length := by
    unfold serverFrame
    rw [readUInt32LE_writeUInt32LE, Nat.mod_eq_of_lt hp]
  have hm : readUInt32LE (serverFrame t payload) ≤
      (serverFrame t payload).length - 5 := by omega
  have hget4 : (serverFrame t payload).getD 4 0 = t % 256 := by
    simp [serverFrame, writeUInt32LE, List.getD]
  have hdrop5 : (serverFrame t payload).drop 5 = payload := by
    simp [serverFrame, writeUInt32LE]
  have hdroprest : (serverFrame t payload).drop (5 + payload.length) = [] := by
    apply List.drop_eq_nil_of_le
    omega
  rw [drain_of_complete h5 hm, hread, hget4, hdrop5, hdroprest,
    drain_of_short (by simp)]
  have htype : readInt8 (t % 256) = (t : Int) := by
    unfold readInt8
    have h1 : t % 256 % 256 = t := by omega
    rw [h1, if_pos ht]
  rw [htype]
  simp

/-! ## Message type enumeration

Identical on both sides (part_000 lines 15-40, debugger.cpp lines 382-408). -/

namespace MessageType

def Diagnostics : Nat := 0
def RequestFile : Nat := 1
def File : Nat := 2
def StartDebugging : Nat := 3
def StopDebugging : Nat := 4
def Pause : Nat := 5
def Continue : Nat := 6
def RequestCallStack : Nat := 7
def CallStack : Nat := 8
def ClearBreakpoints : Nat := 9
def SetBreakpoint : Nat := 10
def HasStopped : Nat := 11
def HasContinued : Nat := 12
def StepOver : Nat := 13
def StepIn : Nat := 14
def StepOut : Nat := 15
def RequestSetVariable : Nat := 16
def SetVariable : Nat := 17
def RequestVariables : Nat := 18
def Variables : Nat := 19
def RequestEvaluate : Nat := 20
def Evaluate : Nat := 21
def Disconnect : Nat := 22
def TotalMessages : Nat := 23

end MessageType

/-! ## Concrete emissions used as test inputs -/

/-- Byte codes of a Lean string, for concrete filenames and reasons. -/
def strBytes (s : String) : List Nat := s.toList.map Char.toNat

/-- `CUtlBuffer::PutInt(n); PutString(s)` pair as the server writes strings:
a signed 32-bit length prefix `s.size() + 1`, the characters, then the NUL
that `PutString` appends. -/
def putLenString (s : List Nat) : List Nat :=
  writeUInt32LE (s.length + 1) ++ s ++ [0]

/-- Payload of the `HasStopped` message built in `WaitWalkCmd`
(debugger.cpp lines 1274-1289): the reason string twice, then the text. -/
def hasStoppedPayload (reason text : List Nat) : List Nat :=
  putLenString reason ++ putLenString reason ++ putLenString text

/-- The full `HasStopped` frame `WaitWalkCmd` sends, length field patched to
`TellPut() - 5`. -/
def waitWalkCmdFrame (reason text : List Nat) : List Nat :=
  serverFrame MessageType.HasStopped (hasStoppedPayload reason text)

/-- The frame `sendPause()` emits (part_000 lines 494-497):
`sendMessage(MessageType.Pause, Buffer.alloc(0), 2)`. -/
def sendPauseFrame : List Nat := clientFrame MessageType.Pause [] (some 2)

/-! ## Claim C1: the length field -/

/-- C1 counterexample: the claim says the 4-byte length field of every frame
the server and the client emit equals the size of the type byte plus the
payload.  For the `HasStopped` frame `WaitWalkCmd` emits with reason
"Breakpoint" and text "N/A", the length field is `TellPut() - 5`, the payload
size alone (38), not 1 + 38. -/
theorem C1_counterexample_server_length :
    lengthField (waitWalkCmdFrame (strBytes "Breakpoint") (strBytes "N/A")) =
        (hasStoppedPayload (strBytes "Breakpoint") (strBytes "N/A")).length ∧
      lengthField (waitWalkCmdFrame (strBytes "Breakpoint") (strBytes "N/A")) ≠
        1 + (hasStoppedPayload (strBytes "Breakpoint") (strBytes "N/A")).length := by
  constructor
  · decide
  · decide

/-- C1 (amended): the two sides use different length conventions.  A frame
the client emits via `sendMessage` carries `fullMessage.length - 4`: the type
byte, the optional extra byte and the payload.  A frame the server emits via
the `CUtlBuffer` pattern carries `TellPut() - 5`: the payload bytes only,
excluding both the length field and the type byte. -/
theorem C1_length_field (t : Nat) (payload : List Nat) (e : Option Nat)
    (hc : 1 + (extraBytes e).length + payload.length < 2 ^ 32)
    (hs : payload.length < 2 ^ 32) :
    lengthField (clientFrame t payload e) =
        1 + (extraBytes e).length + payload.length ∧
      lengthField (serverFrame t payload) = payload.length :=
  ⟨lengthField_clientFrame t payload e hc, lengthField_serverFrame t payload hs⟩

theorem C1_length_field_witness :
    lengthField (clientFrame 5 [7] (some 2)) =
        1 + (extraBytes (some 2)).length + ([7] : List Nat).length ∧
      lengthField (serverFrame 5 [7]) = ([7] : List Nat).length :=
  C1_length_field 5 [7] (some 2) (by decide) (by decide)

/-! ## Claim C2: decode ∘ encode -/

/-- C2 counterexample: with `encode` the client-side writer and `decode` the
client-side `readMessages`, the round trip fails.  `sendPause()` emits the
6-byte frame `[2,0,0,0,5,2]` whose length field (2) counts the type byte, but
`readMessages` treats the length as payload-only and finds only 1 byte after
the 5-byte header, so it extracts nothing at all — not the Pause message. -/
theorem C2_counterexample_roundtrip :
    (drain sendPauseFrame).1 = [] ∧
      (drain sendPauseFrame).1 ≠ [⟨MessageType.Pause, [2]⟩] := by
  have hd : drain sendPauseFrame = ([], sendPauseFrame) :=
    drain_of_incomplete (by decide) (by decide)
  rw [hd]
  exact ⟨rfl, by simp⟩

/-- C2 (amended): the round trip `decode(encode(m)) == m` holds for the pair
actually exercised on the wire — the server-side writer (payload-only length)
and the client-side `readMessages` reader: decoding one server frame yields
exactly one message with that type and payload and leaves nothing pending.
With the client-side writer the reader never completes the message. -/
theorem C2_server_roundtrip (t : Nat) (payload : List Nat) (ht : t < 128)
    (hp : payload.length < 2 ^ 32) :
    drain (serverFrame t payload) = ([⟨(t : Int), payload⟩], []) :=
  drain_serverFrame_eq t payload ht hp

theorem C2_server_roundtrip_witness :
    drain (serverFrame 11 [1, 2, 3]) = ([⟨(11 : Int), [1, 2, 3]⟩], []) :=
  C2_server_roundtrip 11 [1, 2, 3] (by decide) (by decide)

/-! ## Claim C3: split-delivery invariance -/

/-- C3 counterexample: the claim quantifies over `encode(m)` with the
client-side writer.  Splitting the `sendPause()` frame after 3 bytes and
feeding both pieces to `readMessages` yields no decoded message (the same
header mismatch as C2), not exactly one message equal to m. -/
theorem C3_counterexample_split :
    (feedChunks [] [sendPauseFrame.take 3, sendPauseFrame.drop 3]).1 = [] ∧
      (feedChunks [] [sendPauseFrame.take 3, sendPauseFrame.drop 3]).1 ≠
        [⟨MessageType.Pause, [2]⟩] := by
  have h1 : drain (sendPauseFrame.take 3) = ([], [2, 0, 0]) := by
    have he : sendPauseFrame.take 3 = [2, 0, 0] := by decide
    rw [he]
    exact drain_of_short (by decide)
  have h2 : drain (([2, 0, 0] : List Nat) ++ sendPauseFrame.drop 3) =
      ([], [2, 0, 0, 0, 5, 2]) := by
    have he : ([2, 0, 0] : List Nat) ++ sendPauseFrame.drop 3 =
        [2, 0, 0, 0, 5, 2] := by decide
    rw [he]
    exact drain_of_incomplete (by decide) (by decide)
  have hfc : feedChunks [] [sendPauseFrame.take 3, sendPauseFrame.drop 3] =
      ([], [2, 0, 0, 0, 5, 2]) := by
    simp only [feedChunks, h1, h2, List.nil_append, List.append_nil]
  rw [hfc]
  exact ⟨rfl, by simp⟩

/-- C3 (amended): for a server-framed message, every way of splitting the
frame into consecutive partial deliveries — any chunk list whose
concatenation is the frame, hence every byte boundary — makes `readMessages`
produce exactly one message equal to it, with nothing pending, no loss and no
error on short buffers, identical to whole delivery. -/
theorem C3_split_invariance (t : Nat) (payload : List Nat)
    (chunks : List (List Nat)) (ht : t < 128) (hp : payload.length < 2 ^ 32)
    (hj : chunks.flatten = serverFrame t payload) :
    feedChunks [] chunks = ([⟨(t : Int), payload⟩], []) := by
  rw [feedChunks_eq_drain_flatten chunks [] (drain_of_short (by simp)),
    List.nil_append, hj]
  exact drain_serverFrame_eq t payload ht hp

theorem C3_split_invariance_witness :
    feedChunks [] [[3, 0, 0, 0], [11, 9], [8, 7]] =
      ([⟨(11 : Int), [9, 8, 7]⟩], []) :=
  C3_split_invariance 11 [9, 8, 7] [[3, 0, 0, 0], [11, 9], [8, 7]]
    (by decide) (by decide) (by decide)

/-! ## Execution states (debugger.cpp lines 371-381; `int current_state`) -/

def DebugDead : Int := -1
def DebugRun : Int := 0
def DebugBreakpoint : Int := 1
def DebugPause : Int := 2
def DebugStepIn : Int := 3
def DebugStepOver : Int := 4
def DebugStepOut : Int := 5
def DebugException : Int := 6

/-! ## Breakpoint registry (debugger.cpp lines 495-509)

`break_list : unordered_map<string, unordered_set<long>>` is modelled as an
association list of per-file line lists; the C++ set cannot hold duplicates,
which appears below as a `Nodup` hypothesis where it matters. -/

/-- `unordered_set<long>::insert`: adds the line unless already present. -/
def insertLine (s : List Int) (line : Int) : List Int :=
  if line ∈ s then s else s ++ [line]

/-- Lines registered for a file (lookup in `break_list`; absent key reads as
the empty set). -/
def breakpointsOf (bl : List (String × List Int)) (file : String) : List Int :=
  match bl.find? (fun e => e.1 == file) with
  | some e => e.2
  | none => []

/-- `DebuggerClient::setBreakpoint(path, line, id)` (lines 495-499):
`break_list[path].insert(line)`; `operator[]` creates an empty set for a new
key; the id is dropped. -/
def setBreakpoint (bl : List (String × List Int)) (path : String) (line : Int)
    (id : Int) : List (String × List Int) :=
  if bl.any (fun e => e.1 == path) then
    bl.map (fun e => if e.1 == path then (e.1, insertLine e.2 line) else e)
  else bl ++ [(path, [line])]

/-- `DebuggerClient::clearBreakpoints(fileName)` (lines 501-509): if the key
is present its set is cleared in place; the key itself stays; an absent key
is untouched. -/
def clearBreakpoints (bl : List (String × List Int)) (fileName : String) :
    List (String × List Int) :=
  if bl.any (fun e => e.1 == fileName) then
    bl.map (fun e => if e.1 == fileName then (e.1, ([] : List Int)) else e)
  else bl

theorem breakpointsOf_cons_pos {a : String × List Int}
    {bl : List (String × List Int)} {f : String} (h : (a.1 == f) = true) :
    breakpointsOf (a :: bl) f = a.2 := by
  unfold breakpointsOf
  simp [List.find?_cons, h]

theorem breakpointsOf_cons_neg {a : String × List Int}
    {bl : List (String × List Int)} {f : String} (h : (a.1 == f) = false) :
    breakpointsOf (a :: bl) f = breakpointsOf bl f := by
  unfold breakpointsOf
  simp [List.find?_cons, h]

theorem setBreakpoint_cons_neg {a : String × List Int}
    {bl : List (String × List Int)} {path : String} {line id : Int}
    (h : (a.1 == path) = false) :
    setBreakpoint (a :: bl) path line id = a :: setBreakpoint bl path line id := by
  unfold setBreakpoint
  simp only [List.any_cons, h, Bool.false_or]
  by_cases hany : bl.any (fun e => e.1 == path)
  · rw [if_pos hany, if_pos hany, List.map_cons, if_neg (by simp [h])]
  · rw [if_neg hany, if_neg hany, List.cons_append]

theorem breakpointsOf_setBreakpoint (bl : List (String × List Int))
    (path : String) (line : Int) (id : Int) :
    breakpointsOf (setBreakpoint bl path line id) path =
      insertLine (breakpointsOf bl path) line := by
  induction bl with
  | nil =>
    simp [setBreakpoint, breakpointsOf, insertLine]
  | cons a l ih =>
    by_cases ha : (a.1 == path) = true
    · have hset : setBreakpoint (a :: l) path line id =
          (a.1, insertLine a.2 line) ::
            l.map (fun e => if e.1 == path then (e.1, insertLine e.2 line) else e) := by
        unfold setBreakpoint
        rw [if_pos (by simp [List.any_cons, ha]), List.map_cons]
        congr 1
        rw [if_pos ha]
      rw [hset, breakpointsOf_cons_pos (by simpa using ha),
        breakpointsOf_cons_pos ha]
    · have ha' : (a.1 == path) = false := by simpa using ha
      rw [setBreakpoint_cons_neg ha', breakpointsOf_cons_neg ha',
        breakpointsOf_cons_neg ha', ih]

theorem entry_empty_of_breakpointsOf_empty (bl : List (String × List Int))
    (f : String) (hkeys : (bl.map Prod.fst).Nodup)
    (h : breakpointsOf bl f = []) :
    ∀ e ∈ bl, e.1 = f → e.2 = [] := by
  induction bl with
  | nil =>
    intro e he
    simp at he
  | cons a l ih =>
    simp only [List.map_cons, List.nodup_cons] at hkeys
    intro e he hef
    by_cases ha : (a.1 == f) = true
    · rw [breakpointsOf_cons_pos ha] at h
      rcases List.mem_cons.mp he with rfl | hel
      · exact h
      · exfalso
        have haf : a.1 = f := by simpa using ha
        exact hkeys.1 (by
          rw [haf, ← hef]
          exact List.mem_map_of_mem Prod.fst hel)
    · have ha' : (a.1 == f) = false := by simpa using ha
      rw [breakpointsOf_cons_neg ha'] at h
      rcases List.mem_cons.mp he with rfl | hel
      · exact absurd (by simpa using hef) (by simpa using ha')
      · exact ih hkeys.2 h e hel hef

theorem clearBreakpoints_of_empty (bl : List (String × List Int))
    (fileName : String) (hkeys : (bl.map Prod.fst).Nodup)
    (h : breakpointsOf bl fileName = []) :
    clearBreakpoints bl fileName = bl := by
  unfold clearBreakpoints
  by_cases hany : bl.any (fun e => e.1 == fileName)
  · rw [if_pos hany]
    have hent : ∀ e ∈ bl,
        (if e.1 == fileName then (e.1, ([] : List Int)) else e) = e := by
      intro e he
      by_cases hef : (e.1 == fileName) = true
      · have h2 : e.2 = [] :=
          entry_empty_of_breakpointsOf_empty bl fileName hkeys h e he
            (by simpa using hef)
        rw [if_pos hef]
        obtain ⟨e1, e2⟩ := e
        simp only at h2
        rw [h2]
      · simp [hef]
    calc bl.map (fun e => if e.1 == fileName then (e.1, ([] : List Int)) else e)
        = bl.map id := List.map_congr_left hent
      _ = bl := List.map_id bl
  · rw [if_neg hany]


theorem count_insertLine_twice (s : List Int) (l : Int) (h : s.Nodup) :
    (insertLine (insertLine s l) l).count l = 1 := by
  unfold insertLine
  by_cases hm : l ∈ s
  · rw [if_pos hm, if_pos hm]
    exact List.count_eq_one_of_mem h hm
  · rw [if_neg hm, if_pos (by simp)]
    rw [List.count_append]
    simp [List.count_eq_zero_of_not_mem hm]

/-! ## Claim C9: breakpoint registry algebra -/

/-- C9: inserting the same file and line twice leaves exactly one entry for
that line in the breakpoint set of the file (the `unordered_set` insert is
idempotent), and clearing breakpoints of a file that has none registered
leaves the registry unchanged.  The `Nodup` hypotheses are the inherent
invariants of `unordered_map` keys and `unordered_set` elements. -/
theorem C9_registry (bl : List (String × List Int)) (f g : String) (l id : Int)
    (hnd : (breakpointsOf bl f).Nodup)
    (hkeys : (bl.map Prod.fst).Nodup)
    (hg : breakpointsOf bl g = []) :
    (breakpointsOf (setBreakpoint (setBreakpoint bl f l id) f l id) f).count l
        = 1 ∧
      clearBreakpoints bl g = bl := by
  constructor
  · rw [breakpointsOf_setBreakpoint, breakpointsOf_setBreakpoint]
    exact count_insertLine_twice _ _ hnd
  · exact clearBreakpoints_of_empty bl g hkeys hg

theorem C9_registry_witness :
    (breakpointsOf
          (setBreakpoint (setBreakpoint [("other.sp", [3])] "test.sp" 10 1)
            "test.sp" 10 1) "test.sp").count 10 = 1 ∧
      clearBreakpoints [("other.sp", [3])] "main.sp" = [("other.sp", [3])] :=
  C9_registry [("other.sp", [3])] "test.sp" "main.sp" 10 1
    (by decide) (by decide) (by decide)

/-! ## Filename handling -/

/-- Character scan for `std::filesystem::path::filename`: the component
after the last directory separator. -/
def basenameAux : List Char → List Char → List Char
  | [], acc => acc.reverse
  | c :: rest, acc =>
    if c = '/' then basenameAux rest [] else basenameAux rest (c :: acc)

/-- `std::filesystem::path(p).filename()`: the component after the last
directory separator. -/
def basename (path : String) : String := String.mk (basenameAux path.data [])

/-- The `lowercase` template (debugger.cpp lines 362-369): returns a lowered
copy of its argument.  Every call site in the first implementation discards
the returned value (`lowercase(filename);`), so the strings actually stored
and compared keep their original case. -/
def lowercase (s : String) : String := String.mk (s.data.map Char.toLower)

/-- Whether `needle` occurs at the head of `hay`. -/
def matchAt : List Char → List Char → Bool
  | [], _ => true
  | _ :: _, [] => false
  | a :: as, b :: bs => a == b && matchAt as bs

/-- `hay.find(needle) != std::string::npos`: substring occurrence. -/
def strFind (hay needle : List Char) : Bool :=
  match hay with
  | [] => needle.isEmpty
  | _ :: t => matchAt needle hay || strFind t needle

/-- The `current_file` resolution of `DebugHook` (lines 1337-1364): the
basename of the first scripted frame (or "N/A" when there is none), replaced
by the first attached file containing it as a substring. -/
def resolveFile (files : List String) (scriptedFile : Option String) : String :=
  match scriptedFile with
  | none => "N/A"
  | some base =>
    match files.find? (fun file => strFind file.toList base.toList) with
    | some file => file
    | none => base

/-- `unordered_set<string>::insert`. -/
def insertFile (files : List String) (f : String) : List String :=
  if f ∈ files then files else files ++ [f]

/-! ## Session state (class DebuggerClient, lines 430-475)

Fields the claims touch.  `current_image` and `images` carry only the map
keys (the disk image contents live behind the external `SmxV1Image`); the
socket and the external iterator handle are omitted.  `context_` is the
identity of the `IPluginContext*`. -/

structure Sess where
  current_state : Int := DebugRun
  files : List String := []
  break_list : List (String × List Int) := []
  receive_walk_cmd : Bool := false
  unload : Bool := false
  lastfrm_ : Int := 0
  cip_ : Int := 0
  frm_ : Int := 0
  context_ : Nat := 0
  images : List String := []
  current_image : Option String := none
  deriving Repr, DecidableEq

/-- One interpreter line-reached callback, as `DebugHook` receives and
derives it: the plugin context identity, the runtime filename
(`ctx->GetRuntime()->GetFilename()`), the break info registers, the basename
of the first scripted frame of the fresh frame iterator (none when every
frame is native), and the line that `current_image->LookupLine(cip_, …)`
resolves (the Symbol Provider collaborator answer). -/
structure BreakEvent where
  ctx : Nat
  runtimeFile : String
  cip : Int
  frm : Int
  scriptedFile : Option String
  line : Nat
  deriving Repr, DecidableEq

/-- Result of one `WaitWalkCmd` call. -/
structure WaitOut where
  sess : Sess
  suspended : Bool
  threw : Bool
  deriving Repr, DecidableEq

/-- `WaitWalkCmd` (lines 1269-1299).  When `receive_walk_cmd` is false it
sends `HasStopped` and parks in `cv.wait` until `SwitchState` (or
`stopDebugging`) stores a new state and sets the flag; `resumeState` is that
stored state.  After the wait, a `DebugDead` state sets `unload` and throws
`debugger_stopped`. -/
def waitWalkCmd (resumeState : Int) (s : Sess) : WaitOut :=
  let parked := !s.receive_walk_cmd
  let s := if parked then
      { s with current_state := resumeState, receive_walk_cmd := true }
    else s
  if s.current_state = DebugDead then
    ⟨{ s with unload := true }, parked, true⟩
  else
    ⟨s, parked, false⟩

/-- Result of one `DebugHook` call.  `result` is the returned state (when
`threw` is set the call unwound via `debugger_stopped` instead of
returning); `lastline` is the value of the function-local
`static uint32_t lastline` after the call; `suspended` tells whether the
call parked in the rendezvous at least once. -/
structure HookOut where
  result : Int
  sess : Sess
  lastline : Nat
  suspended : Bool
  threw : Bool
  deriving Repr, DecidableEq

/-- `DebugHook` prologue (lines 1313-1331): the image-cache lookup or
insertion, setting `current_image`, and the `context_ = ctx` store — all of
which run before the Dead check. -/
def hookPrologue (s : Sess) (e : BreakEvent) : Sess :=
  let s := if s.images.contains e.runtimeFile then
      { s with current_image := some e.runtimeFile }
    else
      { s with images := s.images ++ [e.runtimeFile],
               current_image := some e.runtimeFile }
  { s with context_ := e.ctx }

/-- `DebugHook` register stores (lines 1331-1335), after the Dead check:
`context_`, `cip_`, `frm_` and the `receive_walk_cmd = false` reset. -/
def hookRegisters (s : Sess) (e : BreakEvent) : Sess :=
  { s with context_ := e.ctx, cip_ := e.cip, frm_ := e.frm,
           receive_walk_cmd := false }

/-- Line 1377-1378: a StepOut session that returned to a shallower frame
(`frm_ > lastfrm_`) is treated as StepIn. -/
def hookStepOut (s : Sess) (e : BreakEvent) : Sess :=
  if s.current_state = DebugStepOut ∧ e.frm > s.lastfrm_ then
    { s with current_state := DebugStepIn }
  else s

/-- Lines 1380-1395: Pause and StepIn suspend unconditionally; otherwise a
registered breakpoint at the resolved file and current line switches to
Breakpoint and suspends; otherwise nothing happens here. -/
def hookPauseOrBreak (resumeState : Int) (s : Sess) (e : BreakEvent) : WaitOut :=
  if s.current_state = DebugPause ∨ s.current_state = DebugStepIn then
    waitWalkCmd resumeState s
  else if (breakpointsOf s.break_list
      (resolveFile s.files e.scriptedFile)).contains (e.line : Int) then
    waitWalkCmd resumeState { s with current_state := DebugBreakpoint }
  else
    ⟨s, false, false⟩

/-- Lines 1397-1413: the StepOver depth check, the second rendezvous, and
the `lastfrm_ = frm_` store that every non-early-returning path executes.
`waitWalkCmd resumeState w1.sess` is the single `WaitWalkCmd()` call of the
StepOver branch (the function is pure, so its repeated mention denotes the
one result). -/
def hookTail (resumeState : Int) (lastline : Nat) (w1 : WaitOut)
    (e : BreakEvent) : HookOut :=
  if w1.threw then
    ⟨w1.sess.current_state, w1.sess, lastline, w1.suspended, true⟩
  else if w1.sess.current_state = DebugStepOver then
    if e.frm < w1.sess.lastfrm_ then
      ⟨w1.sess.current_state, w1.sess, lastline, w1.suspended, false⟩
    else if (waitWalkCmd resumeState w1.sess).threw then
      ⟨(waitWalkCmd resumeState w1.sess).sess.current_state,
        (waitWalkCmd resumeState w1.sess).sess, lastline,
        w1.suspended || (waitWalkCmd resumeState w1.sess).suspended, true⟩
    else if (waitWalkCmd resumeState w1.sess).sess.current_state =
        DebugDead then
      ⟨(waitWalkCmd resumeState w1.sess).sess.current_state,
        (waitWalkCmd resumeState w1.sess).sess, lastline,
        w1.suspended || (waitWalkCmd resumeState w1.sess).suspended, false⟩
    else
      ⟨(waitWalkCmd resumeState w1.sess).sess.current_state,
        { (waitWalkCmd resumeState w1.sess).sess with lastfrm_ := e.frm },
        lastline,
        w1.suspended || (waitWalkCmd resumeState w1.sess).suspended, false⟩
  else
    ⟨w1.sess.current_state, { w1.sess with lastfrm_ := e.frm }, lastline,
      w1.suspended, false⟩

/-- The whole post-dedupe body of `DebugHook` (lines 1376-1413), with the
shared cell already updated to the current line. -/
def hookLine (resumeState : Int) (s : Sess) (e : BreakEvent) : HookOut :=
  hookTail resumeState e.line (hookPauseOrBreak resumeState (hookStepOut s e) e) e

/-- `DebugHook` (lines 1310-1414).  `lastline` is passed and returned
explicitly because the source declares it as a function-local `static`: one
cell shared by every `DebuggerClient` instance. -/
def debugHook (resumeState : Int) (lastline : Nat) (s : Sess) (e : BreakEvent) :
    HookOut :=
  let s := hookPrologue s e
  if s.current_state = DebugDead then
    ⟨s.current_state, s, lastline, false, false⟩
  else
    let s := hookRegisters s e
    if e.line = lastline then
      ⟨s.current_state, s, lastline, false, false⟩
    else
      hookLine resumeState s e

theorem hookPrologue_current_state (s : Sess) (e : BreakEvent) :
    (hookPrologue s e).current_state = s.current_state := by
  unfold hookPrologue
  split <;> rfl

theorem hookPrologue_fields (s : Sess) (e : BreakEvent) :
    (hookPrologue s e).files = s.files ∧
      (hookPrologue s e).break_list = s.break_list ∧
      (hookPrologue s e).receive_walk_cmd = s.receive_walk_cmd ∧
      (hookPrologue s e).unload = s.unload ∧
      (hookPrologue s e).lastfrm_ = s.lastfrm_ ∧
      (hookPrologue s e).cip_ = s.cip_ ∧
      (hookPrologue s e).frm_ = s.frm_ ∧
      (hookPrologue s e).context_ = e.ctx ∧
      (hookPrologue s e).current_image = some e.runtimeFile := by
  unfold hookPrologue
  split <;> exact ⟨rfl, rfl, rfl, rfl, rfl, rfl, rfl, rfl, rfl⟩

/-- On a live session with a fresh line, `DebugHook` runs the prologue, the
register stores, then the post-dedupe body. -/
theorem debugHook_live (s : Sess) (e : BreakEvent) (L : Nat) (r : Int)
    (hs : ¬s.current_state = DebugDead) (hl : ¬e.line = L) :
    debugHook r L s e =
      hookLine r (hookRegisters (hookPrologue s e) e) e := by
  unfold debugHook
  rw [if_neg (by rw [hookPrologue_current_state]; exact hs), if_neg hl]

/-! ## Claim C7: callbacks on a Dead session -/

/-- Helper: what a callback on a Dead session does, in full. -/
theorem debugHook_dead (s : Sess) (e : BreakEvent) (L : Nat) (r : Int)
    (hs : s.current_state = DebugDead) :
    debugHook r L s e =
      ⟨DebugDead,
        { s with context_ := e.ctx,
                 current_image := some e.runtimeFile,
                 images := if s.images.contains e.runtimeFile then s.images
                   else s.images ++ [e.runtimeFile] },
        L, false, false⟩ := by
  unfold debugHook hookPrologue
  by_cases hc : e.runtimeFile ∈ s.images <;> simp [hc, hs]

/-- C7 (amended): once a Session is Dead every further line callback returns
`DebugDead` without entering the rendezvous and without touching
`cip_`, `frm_`, `lastline`, `lastfrm_`, `receive_walk_cmd`, `files` or
`break_list` — but, contrary to the claim, it still runs the image-cache
prologue first: `context_` is overwritten, `current_image` is set and a
missing image is inserted into `images` before the Dead check. -/
theorem C7_dead_no_rendezvous (s : Sess) (e : BreakEvent) (L : Nat) (r : Int)
    (hs : s.current_state = DebugDead) :
    (debugHook r L s e).result = DebugDead ∧
      (debugHook r L s e).suspended = false ∧
      (debugHook r L s e).threw = false ∧
      (debugHook r L s e).lastline = L ∧
      (debugHook r L s e).sess.cip_ = s.cip_ ∧
      (debugHook r L s e).sess.frm_ = s.frm_ ∧
      (debugHook r L s e).sess.lastfrm_ = s.lastfrm_ ∧
      (debugHook r L s e).sess.receive_walk_cmd = s.receive_walk_cmd ∧
      (debugHook r L s e).sess.files = s.files ∧
      (debugHook r L s e).sess.break_list = s.break_list ∧
      (debugHook r L s e).sess.context_ = e.ctx ∧
      (debugHook r L s e).sess.current_image = some e.runtimeFile := by
  rw [debugHook_dead s e L r hs]
  refine ⟨rfl, rfl, rfl, rfl, rfl, rfl, rfl, rfl, rfl, rfl, rfl, rfl⟩

theorem C7_dead_no_rendezvous_witness :
    (debugHook DebugRun 4 { current_state := DebugDead }
          ⟨1, "plugin.smx", 5, 7, none, 3⟩).result = DebugDead ∧
      (debugHook DebugRun 4 { current_state := DebugDead }
          ⟨1, "plugin.smx", 5, 7, none, 3⟩).suspended = false ∧
      (debugHook DebugRun 4 { current_state := DebugDead }
          ⟨1, "plugin.smx", 5, 7, none, 3⟩).threw = false ∧
      (debugHook DebugRun 4 { current_state := DebugDead }
          ⟨1, "plugin.smx", 5, 7, none, 3⟩).lastline = 4 ∧
      (debugHook DebugRun 4 { current_state := DebugDead }
          ⟨1, "plugin.smx", 5, 7, none, 3⟩).sess.cip_ =
        ({ current_state := DebugDead } : Sess).cip_ ∧
      (debugHook DebugRun 4 { current_state := DebugDead }
          ⟨1, "plugin.smx", 5, 7, none, 3⟩).sess.frm_ =
        ({ current_state := DebugDead } : Sess).frm_ ∧
      (debugHook DebugRun 4 { current_state := DebugDead }
          ⟨1, "plugin.smx", 5, 7, none, 3⟩).sess.lastfrm_ =
        ({ current_state := DebugDead } : Sess).lastfrm_ ∧
      (debugHook DebugRun 4 { current_state := DebugDead }
          ⟨1, "plugin.smx", 5, 7, none, 3⟩).sess.receive_walk_cmd =
        ({ current_state := DebugDead } : Sess).receive_walk_cmd ∧
      (debugHook DebugRun 4 { current_state := DebugDead }
          ⟨1, "plugin.smx", 5, 7, none, 3⟩).sess.files =
        ({ current_state := DebugDead } : Sess).files ∧
      (debugHook DebugRun 4 { current_state := DebugDead }
          ⟨1, "plugin.smx", 5, 7, none, 3⟩).sess.break_list =
        ({ current_state := DebugDead } : Sess).break_list ∧
      (debugHook DebugRun 4 { current_state := DebugDead }
          ⟨1, "plugin.smx", 5, 7, none, 3⟩).sess.context_ = 1 ∧
      (debugHook DebugRun 4 { current_state := DebugDead }
          ⟨1, "plugin.smx", 5, 7, none, 3⟩).sess.current_image =
        some "plugin.smx" :=
  C7_dead_no_rendezvous { current_state := DebugDead }
    ⟨1, "plugin.smx", 5, 7, none, 3⟩ 4 DebugRun (by decide)

/-- C7 counterexample: the claim says a callback on a Dead session has no
side effect on any Session state, naming `images`, `current_image` and
`context_` among the untouched fields.  On a Dead session whose `context_`
is 0 and whose image cache is empty, one callback from context 1 for
"plugin.smx" overwrites `context_` and grows `images`. -/
theorem C7_counterexample_side_effects :
    (debugHook DebugRun 0 { current_state := DebugDead }
          ⟨1, "plugin.smx", 5, 7, none, 3⟩).sess.context_ = 1 ∧
      ({ current_state := DebugDead } : Sess).context_ = 0 ∧
      (debugHook DebugRun 0 { current_state := DebugDead }
          ⟨1, "plugin.smx", 5, 7, none, 3⟩).sess.images = ["plugin.smx"] ∧
      ({ current_state := DebugDead } : Sess).images = [] := by
  decide

/-! ## Claim C5: the line-dedupe cell -/

/-- Helper: the dedupe early return.  When the line equals the shared
`lastline` cell the hook returns the current state untouched, without
suspending, for every session alike. -/
theorem debugHook_dedupe (L : Nat) (s : Sess) (e : BreakEvent) (r : Int)
    (hs : ¬s.current_state = DebugDead) (hl : e.line = L) :
    (debugHook r L s e).suspended = false ∧
      (debugHook r L s e).result = s.current_state ∧
      (debugHook r L s e).lastline = L := by
  unfold debugHook hookPrologue hookRegisters
  by_cases hc : e.runtimeFile ∈ s.images <;> simp [hc, hs, hl]

/-- C5 (amended): `lastline` is declared `static uint32_t` inside
`DebugHook`, so it is one cell shared by every DebuggerClient.  Whatever
session A processed, any session B whose next callback reports the line
number now stored in the shared cell is deduplicated — B does not suspend —
even though B never saw that line.  (The original claim, that the dedupe
state is per Session, is refuted by the counterexample.) -/
theorem C5_shared_lastline (L : Nat) (sA sB : Sess) (eA eB : BreakEvent)
    (r : Int) (hsB : ¬sB.current_state = DebugDead)
    (hline : eB.line = (debugHook r L sA eA).lastline) :
    (debugHook r (debugHook r L sA eA).lastline sB eB).suspended = false ∧
      (debugHook r (debugHook r L sA eA).lastline sB eB).result =
        sB.current_state := by
  have h := debugHook_dedupe (debugHook r L sA eA).lastline sB eB r hsB hline
  exact ⟨h.1, h.2.1⟩

theorem C5_shared_lastline_witness :
    (debugHook DebugRun
          (debugHook DebugRun 0 {} ⟨1, "a.smx", 0, 0, some "a.sp", 7⟩).lastline
          { current_state := DebugPause }
          ⟨2, "b.smx", 0, 0, some "b.sp", 7⟩).suspended = false ∧
      (debugHook DebugRun
          (debugHook DebugRun 0 {} ⟨1, "a.smx", 0, 0, some "a.sp", 7⟩).lastline
          { current_state := DebugPause }
          ⟨2, "b.smx", 0, 0, some "b.sp", 7⟩).result =
        ({ current_state := DebugPause } : Sess).current_state :=
  C5_shared_lastline 0 {} { current_state := DebugPause }
    ⟨1, "a.smx", 0, 0, some "a.sp", 7⟩ ⟨2, "b.smx", 0, 0, some "b.sp", 7⟩
    DebugRun (by decide) (by decide)

/-- C5 counterexample: a Paused session B reporting line 7 from file "b.sp"
(context 2) suspends when the shared `lastline` is still 0, but after an
unrelated Running session A (context 1, file "a.sp") has processed its own
line-7 event, the same callback for B is deduplicated and does not suspend:
the dedupe decision of one session is changed by the other session. -/
theorem C5_counterexample_cross_session :
    (debugHook DebugRun 0 { current_state := DebugPause }
          ⟨2, "b.smx", 0, 0, some "b.sp", 7⟩).suspended = true ∧
      (debugHook DebugRun
          (debugHook DebugRun 0 {} ⟨1, "a.smx", 0, 0, some "a.sp", 7⟩).lastline
          { current_state := DebugPause }
          ⟨2, "b.smx", 0, 0, some "b.sp", 7⟩).suspended = false := by
  decide

/-! ## Claim C6: StepOver depth rule

SourcePawn frame addresses grow downward: a strictly deeper frame has a
strictly smaller `frm`, so "depth strictly deeper than the recorded depth"
is `frm_ < lastfrm_`, the comparison `DebugHook` makes (lines 1397-1411). -/

/-- C6 (amended): with the session stepping over from recorded frame
`lastfrm_`, a callback whose line is not deduplicated and hits no registered
breakpoint behaves as claimed: at a strictly deeper frame
(`e.frm < lastfrm_`) it returns `DebugStepOver` without suspending and
leaves the recorded frame unchanged, and at depth at or above the recorded
frame (`lastfrm_ ≤ e.frm`) it suspends.  The two provisos are forced by the
counterexample (a registered breakpoint at the deeper line suspends) and by
the line-dedupe cell (an event whose line equals `lastline` is swallowed
even at depth at or above the recorded frame). -/
theorem C6_stepOver_depth (s : Sess) (e : BreakEvent) (L : Nat) (r : Int)
    (hst : s.current_state = DebugStepOver)
    (hline : ¬e.line = L)
    (hbp : ((breakpointsOf s.break_list
        (resolveFile s.files e.scriptedFile)).contains (e.line : Int)) = false) :
    (e.frm < s.lastfrm_ →
        (debugHook r L s e).suspended = false ∧
          (debugHook r L s e).result = DebugStepOver ∧
          (debugHook r L s e).sess.lastfrm_ = s.lastfrm_) ∧
      (s.lastfrm_ ≤ e.frm → (debugHook r L s e).suspended = true) := by
  have hpf := hookPrologue_fields s e
  have h1cs : (hookRegisters (hookPrologue s e) e).current_state =
      DebugStepOver := by
    simp [hookRegisters, hookPrologue_current_state, hst]
  have h1files : (hookRegisters (hookPrologue s e) e).files = s.files := by
    simp [hookRegisters, hpf.1]
  have h1bl : (hookRegisters (hookPrologue s e) e).break_list = s.break_list := by
    simp [hookRegisters, hpf.2.1]
  have h1lf : (hookRegisters (hookPrologue s e) e).lastfrm_ = s.lastfrm_ := by
    simp [hookRegisters, hpf.2.2.2.2.1]
  have h1rwc : (hookRegisters (hookPrologue s e) e).receive_walk_cmd = false := by
    simp [hookRegisters]
  rw [debugHook_live s e L r (by rw [hst]; decide) hline]
  unfold hookLine
  obtain ⟨s1, hgen⟩ : ∃ s1, hookRegisters (hookPrologue s e) e = s1 := ⟨_, rfl⟩
  rw [hgen] at h1cs h1files h1bl h1lf h1rwc ⊢
  have hso : hookStepOut s1 e = s1 := by
    unfold hookStepOut
    rw [if_neg]
    rw [h1cs]
    intro hcon
    exact absurd hcon.1 (by decide)
  rw [hso]
  have hpb : hookPauseOrBreak r s1 e = ⟨s1, false, false⟩ := by
    unfold hookPauseOrBreak
    have hA : ¬(s1.current_state = DebugPause ∨
        s1.current_state = DebugStepIn) := by
      rw [h1cs]
      decide
    have hB : ¬((breakpointsOf s1.break_list
        (resolveFile s1.files e.scriptedFile)).contains (e.line : Int) = true) := by
      rw [h1bl, h1files, hbp]
      simp
    rw [if_neg hA, if_neg hB]
  rw [hpb]
  unfold hookTail
  rw [if_neg (by simp), if_pos (by exact h1cs)]
  constructor
  · intro hdeep
    rw [if_pos (by rw [h1lf]; exact hdeep)]
    exact ⟨rfl, h1cs, h1lf⟩
  · intro hup
    rw [if_neg (by rw [h1lf]; exact not_lt.mpr hup)]
    have hw2 : (waitWalkCmd r s1).suspended = true := by
      unfold waitWalkCmd
      rw [h1rwc]
      simp only [Bool.not_false, if_true]
      split <;> rfl
    have hsess : (⟨s1, false, false⟩ : WaitOut).sess = s1 := rfl
    rw [hsess]
    rcases hwe : waitWalkCmd r s1 with ⟨s2, susp2, th2⟩
    rw [hwe] at hw2
    simp only at hw2
    subst hw2
    cases th2
    · rw [if_neg (by simp)]
      split
      · simp
      · simp
    · rw [if_pos rfl]
      simp

theorem C6_stepOver_depth_witness :
    ((⟨0, "x.smx", 0, 50, some "test.sp", 7⟩ : BreakEvent).frm <
          ({ current_state := DebugStepOver, lastfrm_ := 100 } : Sess).lastfrm_ →
        (debugHook DebugRun 0 { current_state := DebugStepOver, lastfrm_ := 100 }
              ⟨0, "x.smx", 0, 50, some "test.sp", 7⟩).suspended = false ∧
          (debugHook DebugRun 0 { current_state := DebugStepOver, lastfrm_ := 100 }
              ⟨0, "x.smx", 0, 50, some "test.sp", 7⟩).result = DebugStepOver ∧
          (debugHook DebugRun 0 { current_state := DebugStepOver, lastfrm_ := 100 }
              ⟨0, "x.smx", 0, 50, some "test.sp", 7⟩).sess.lastfrm_ =
            ({ current_state := DebugStepOver, lastfrm_ := 100 } : Sess).lastfrm_) ∧
      (({ current_state := DebugStepOver, lastfrm_ := 100 } : Sess).lastfrm_ ≤
          (⟨0, "x.smx", 0, 50, some "test.sp", 7⟩ : BreakEvent).frm →
        (debugHook DebugRun 0 { current_state := DebugStepOver, lastfrm_ := 100 }
            ⟨0, "x.smx", 0, 50, some "test.sp", 7⟩).suspended = true) :=
  C6_stepOver_depth { current_state := DebugStepOver, lastfrm_ := 100 }
    ⟨0, "x.smx", 0, 50, some "test.sp", 7⟩ 0 DebugRun
    (by decide) (by decide) (by decide)

/-- C6 counterexample: the claim promises that while the depth is strictly
deeper than the recorded depth a StepOver callback returns without
suspending, with no proviso.  A session stepping over with a breakpoint
registered at test.sp line 7 receives a callback from a strictly deeper
frame (50 < 100) at that line: the hook hits the breakpoint branch first,
switches to Breakpoint and suspends. -/
theorem C6_counterexample_breakpoint_while_deeper :
    ({ current_state := DebugStepOver, lastfrm_ := 100,
        files := ["test.sp"],
        break_list := [("test.sp", [7])] } : Sess).current_state =
        DebugStepOver ∧
      ((⟨0, "x.smx", 0, 50, some "test.sp", 7⟩ : BreakEvent).frm <
        ({ current_state := DebugStepOver, lastfrm_ := 100,
            files := ["test.sp"],
            break_list := [("test.sp", [7])] } : Sess).lastfrm_) ∧
      (debugHook DebugRun 0
          { current_state := DebugStepOver, lastfrm_ := 100,
            files := ["test.sp"], break_list := [("test.sp", [7])] }
          ⟨0, "x.smx", 0, 50, some "test.sp", 7⟩).suspended = true := by
  refine ⟨by decide, by decide, ?_⟩
  decide

/-! ## Claim C10: SetBreakpoint attaches the file -/

/-- `DebuggerClient::recvBreakpoint` (debugger.cpp lines 1479-1491): reads
the path, takes its basename, calls `lowercase(filename)` — whose returned
copy the source discards, leaving `filename` as-is — inserts the name into
the attached-file set `files`, then reads line and id and registers the
breakpoint. -/
def recvBreakpoint (s : Sess) (path : String) (line : Int) (id : Int) : Sess :=
  let filename := basename path
  let s := { s with files := insertFile s.files filename }
  { s with break_list := setBreakpoint s.break_list filename line id }

/-- The second dispatch pass of `DebugHandler` (lines 2282-2304): a client
receives the interpreter event when the basename of one of the runtime
files is in its `files` set. -/
def routesTo (s : Sess) (current_file : String) : Bool :=
  s.files.contains current_file

theorem mem_insertFile (files : List String) (f : String) :
    f ∈ insertFile files f := by
  unfold insertFile
  by_cases h : f ∈ files
  · rw [if_pos h]
    exact h
  · rw [if_neg h]
    simp

theorem mem_insertLine (sl : List Int) (l : Int) : l ∈ insertLine sl l := by
  unfold insertLine
  by_cases h : l ∈ sl
  · rw [if_pos h]
    exact h
  · rw [if_neg h]
    simp

/-- C10 (amended): handling a SetBreakpoint message inserts the basename of
the breakpoint path — with its case preserved, because the `lowercase` call
discards its result — into the Session attached-file set, so the file
becomes eligible for `DebugHandler` event routing even without any
RequestFile handshake, and the breakpoint line is registered under the same
name. -/
theorem C10_setBreakpoint_attaches (s : Sess) (path : String) (line id : Int) :
    basename path ∈ (recvBreakpoint s path line id).files ∧
      routesTo (recvBreakpoint s path line id) (basename path) = true ∧
      line ∈ breakpointsOf (recvBreakpoint s path line id).break_list
        (basename path) := by
  refine ⟨mem_insertFile s.files (basename path), ?_, ?_⟩
  · unfold routesTo recvBreakpoint
    exact List.elem_eq_true_of_mem (mem_insertFile s.files (basename path))
  · unfold recvBreakpoint
    simp only
    rw [breakpointsOf_setBreakpoint]
    exact mem_insertLine _ line

/-- C10 counterexample: the claim says the normalized, lowercased basename
is inserted.  For the path "Dir/Test.SP" the session ends up attached to
"Test.SP", not to the lowercased "test.sp": the `lowercase(filename)` call
has no effect because its return value is discarded. -/
theorem C10_counterexample_case_preserved :
    (recvBreakpoint {} "Dir/Test.SP" 10 1).files.contains
        (lowercase (basename "Dir/Test.SP")) = false ∧
      (recvBreakpoint {} "Dir/Test.SP" 10 1).files = ["Test.SP"] := by
  constructor
  · decide
  · decide

/-! ## Claim C8: the inbound command dispatcher `RecvCmd`

`DebuggerClient::RecvCmd` (debugger.cpp lines 1536-1618) walks the received
buffer with a `CUtlBuffer` get cursor: per iteration it reads the 4-byte
`msg_len` (never used afterwards), the type byte, and dispatches; each known
handler consumes exactly its own payload reads; a type with no case consumes
nothing beyond the 5 header bytes.

Modelled from the spec: the repository ships its own `utlbuffer.h`, which is
not among the provided sources; `GetUnsignedInt` / `GetUnsignedChar` /
`GetInt` / `GetString` are modelled from spec §4.1 — 32-bit little-endian
integers, one byte for chars, strings read up to and including their NUL
terminator. -/

/-- `CUtlBuffer::GetUnsignedChar` at cursor `c`. -/
def getU8 (buf : List Nat) (c : Nat) : Nat := buf.getD c 0 % 256

/-- `CUtlBuffer::GetUnsignedInt` / `GetInt` at cursor `c` (value read for
non-negative payloads). -/
def getU32 (buf : List Nat) (c : Nat) : Nat := readUInt32LE (buf.drop c)

/-- Bytes a `GetString` consumes: everything up to and including the first
NUL. -/
def cstrLen : List Nat → Nat
  | [] => 0
  | b :: t => if b = 0 then 1 else 1 + cstrLen t

/-- The characters a `GetString` yields (the bytes before the NUL). -/
def cstrBytes : List Nat → List Nat
  | [] => []
  | b :: t => if b = 0 then [] else b :: cstrBytes t

/-- The handler a dispatched message runs, with its parsed arguments. -/
inductive Action where
  | requestFile (name : List Nat)
  | stateSwitch (st : Nat)
  | callStackReq
  | variablesReq (scope : List Nat)
  | evaluateReq (varPath : List Nat) (frameId : Nat)
  | disconnectReq
  | clearBps (path : List Nat)
  | setBp (path : List Nat) (line : Nat) (ident : Nat)
  | stopDebuggingReq
  | setVariableReq (varName value : List Nat) (index : Nat)
  deriving Repr, DecidableEq

/-- The type bytes `RecvCmd` has a switch case for. -/
def handledTypes : List Nat :=
  [MessageType.RequestFile, MessageType.Pause, MessageType.Continue,
    MessageType.StepIn, MessageType.StepOver, MessageType.StepOut,
    MessageType.RequestCallStack, MessageType.RequestVariables,
    MessageType.RequestEvaluate, MessageType.Disconnect,
    MessageType.ClearBreakpoints, MessageType.SetBreakpoint,
    MessageType.StopDebugging, MessageType.RequestSetVariable]

/-- Payload bytes the dispatched handler consumes, starting at cursor `c1`
(just past the type byte). -/
def handlerConsumed (buf : List Nat) (c1 : Nat) (ty : Nat) : Nat :=
  if ty = MessageType.RequestFile then 4 + cstrLen (buf.drop (c1 + 4))
  else if ty = MessageType.Pause ∨ ty = MessageType.Continue ∨
      ty = MessageType.StepIn ∨ ty = MessageType.StepOver ∨
      ty = MessageType.StepOut then 1
  else if ty = MessageType.RequestCallStack then 0
  else if ty = MessageType.RequestVariables then
    4 + cstrLen (buf.drop (c1 + 4))
  else if ty = MessageType.RequestEvaluate then
    4 + cstrLen (buf.drop (c1 + 4)) + 4
  else if ty = MessageType.Disconnect then 0
  else if ty = MessageType.ClearBreakpoints then
    4 + cstrLen (buf.drop (c1 + 4))
  else if ty = MessageType.SetBreakpoint then
    4 + cstrLen (buf.drop (c1 + 4)) + 8
  else if ty = MessageType.StopDebugging then 0
  else if ty = MessageType.RequestSetVariable then
    4 + cstrLen (buf.drop (c1 + 4)) + 4 +
      cstrLen (buf.drop (c1 + 4 + cstrLen (buf.drop (c1 + 4)) + 4)) + 4
  else 0

/-- The handler the switch dispatches to, with its parsed arguments; `none`
for a type byte with no case. -/
def handlerAction (buf : List Nat) (c1 : Nat) (ty : Nat) : Option Action :=
  if ty = MessageType.RequestFile then
    some (Action.requestFile (cstrBytes (buf.drop (c1 + 4))))
  else if ty = MessageType.Pause ∨ ty = MessageType.Continue ∨
      ty = MessageType.StepIn ∨ ty = MessageType.StepOver ∨
      ty = MessageType.StepOut then
    some (Action.stateSwitch (getU8 buf c1))
  else if ty = MessageType.RequestCallStack then some Action.callStackReq
  else if ty = MessageType.RequestVariables then
    some (Action.variablesReq (cstrBytes (buf.drop (c1 + 4))))
  else if ty = MessageType.RequestEvaluate then
    some (Action.evaluateReq (cstrBytes (buf.drop (c1 + 4)))
      (getU32 buf (c1 + 4 + cstrLen (buf.drop (c1 + 4)))))
  else if ty = MessageType.Disconnect then some Action.disconnectReq
  else if ty = MessageType.ClearBreakpoints then
    some (Action.clearBps (cstrBytes (buf.drop (c1 + 4))))
  else if ty = MessageType.SetBreakpoint then
    some (Action.setBp (cstrBytes (buf.drop (c1 + 4)))
      (getU32 buf (c1 + 4 + cstrLen (buf.drop (c1 + 4))))
      (getU32 buf (c1 + 4 + cstrLen (buf.drop (c1 + 4)) + 4)))
  else if ty = MessageType.StopDebugging then some Action.stopDebuggingReq
  else if ty = MessageType.RequestSetVariable then
    some (Action.setVariableReq (cstrBytes (buf.drop (c1 + 4)))
      (cstrBytes (buf.drop (c1 + 4 + cstrLen (buf.drop (c1 + 4)) + 4)))
      (getU32 buf (c1 + 4 + cstrLen (buf.drop (c1 + 4)) + 4 +
        cstrLen (buf.drop (c1 + 4 + cstrLen (buf.drop (c1 + 4)) + 4)))))
  else none

/-- The `while (buf.TellGet() < len)` loop of `RecvCmd`: read `msg_len`
(4 bytes, unused), the type byte, dispatch, continue right after whatever
the handler consumed — the declared `msg_len` plays no part in cursor
advance. -/
def recvCmdAux (buf : List Nat) (c : Nat) : List Action :=
  if h : c < buf.length then
    (handlerAction buf (c + 5) (getU8 buf (c + 4))).toList ++
      recvCmdAux buf (c + 5 + handlerConsumed buf (c + 5) (getU8 buf (c + 4)))
  else []
termination_by buf.length - c
decreasing_by omega

/-- `DebuggerClient::RecvCmd(buffer, len)` over the whole received chunk. -/
def RecvCmd (buffer : List Nat) : List Action := recvCmdAux buffer 0

theorem recvCmdAux_step {buf : List Nat} {c : Nat} (h : c < buf.length) :
    recvCmdAux buf c =
      (handlerAction buf (c + 5) (getU8 buf (c + 4))).toList ++
        recvCmdAux buf
          (c + 5 + handlerConsumed buf (c + 5) (getU8 buf (c + 4))) := by
  conv_lhs => rw [recvCmdAux]
  simp [h]

theorem recvCmdAux_end {buf : List Nat} {c : Nat} (h : ¬c < buf.length) :
    recvCmdAux buf c = [] := by
  conv_lhs => rw [recvCmdAux]
  simp [h]

theorem handler_unknown (buf : List Nat) (c1 : Nat) (ty : Nat)
    (h : ty ∉ handledTypes) :
    handlerAction buf c1 ty = none ∧ handlerConsumed buf c1 ty = 0 := by
  have hne : ∀ k ∈ handledTypes, ¬ty = k := by
    intro k hk he
    exact h (he ▸ hk)
  have hsw : ¬(ty = MessageType.Pause ∨ ty = MessageType.Continue ∨
      ty = MessageType.StepIn ∨ ty = MessageType.StepOver ∨
      ty = MessageType.StepOut) := by
    rintro (hx | hx | hx | hx | hx) <;> exact hne _ (by decide) hx
  constructor
  · unfold handlerAction
    rw [if_neg (hne _ (by decide)), if_neg hsw, if_neg (hne _ (by decide)),
      if_neg (hne _ (by decide)), if_neg (hne _ (by decide)),
      if_neg (hne _ (by decide)), if_neg (hne _ (by decide)),
      if_neg (hne _ (by decide)), if_neg (hne _ (by decide)),
      if_neg (hne _ (by decide))]
  · unfold handlerConsumed
    rw [if_neg (hne _ (by decide)), if_neg hsw, if_neg (hne _ (by decide)),
      if_neg (hne _ (by decide)), if_neg (hne _ (by decide)),
      if_neg (hne _ (by decide)), if_neg (hne _ (by decide)),
      if_neg (hne _ (by decide)), if_neg (hne _ (by decide)),
      if_neg (hne _ (by decide))]

/-- Shared helper: an unknown type byte makes the dispatcher continue at the
byte right after the 5-byte header — it does not skip the declared
payload. -/
theorem recvCmdAux_unknown (buf : List Nat) (c : Nat) (hc : c < buf.length)
    (hty : getU8 buf (c + 4) ∉ handledTypes) :
    recvCmdAux buf c = recvCmdAux buf (c + 5) := by
  obtain ⟨ha, hcons⟩ := handler_unknown buf (c + 5) (getU8 buf (c + 4)) hty
  rw [recvCmdAux_step hc, ha, hcons]
  rfl

/-- C8 (amended): on an unknown inbound type byte the dispatcher runs no
handler and continues parsing at the very next byte after the 5-byte header,
not after the declared payload; the message payload is therefore itself
interpreted as subsequent messages, so the Session stays in sync only when
the unknown message has an empty payload. -/
theorem C8_unknown_no_payload_skip (buf : List Nat) (c : Nat)
    (hc : c < buf.length) (hty : getU8 buf (c + 4) ∉ handledTypes) :
    recvCmdAux buf c = recvCmdAux buf (c + 5) :=
  recvCmdAux_unknown buf c hc hty

theorem C8_unknown_no_payload_skip_witness :
    recvCmdAux [7, 0, 0, 0, 2, 2, 0, 0, 0, 5, 9] 0 =
      recvCmdAux [7, 0, 0, 0, 2, 2, 0, 0, 0, 5, 9] (0 + 5) :=
  C8_unknown_no_payload_skip [7, 0, 0, 0, 2, 2, 0, 0, 0, 5, 9] 0
    (by decide) (by decide)

/-- C8 counterexample: one inbound frame of type 2 (`File`, a type `RecvCmd`
has no case for) with the 6-byte declared payload `[2,0,0,0,5,9]`.  Per the
claim the message is discarded whole and nothing runs.  The code leaves the
payload in the stream, re-reads it as a message header, finds type 5 (Pause)
and executes a state switch to 9 fabricated from the discarded payload. -/
theorem C8_counterexample_desync :
    RecvCmd [7, 0, 0, 0, 2, 2, 0, 0, 0, 5, 9] = [Action.stateSwitch 9] ∧
      ([Action.stateSwitch 9] : List Action) ≠ [] := by
  constructor
  · unfold RecvCmd
    rw [recvCmdAux_unknown _ 0 (by decide) (by decide)]
    show recvCmdAux [7, 0, 0, 0, 2, 2, 0, 0, 0, 5, 9] 5 = _
    rw [recvCmdAux_step (by decide)]
    have ha : handlerAction [7, 0, 0, 0, 2, 2, 0, 0, 0, 5, 9] (5 + 5)
        (getU8 [7, 0, 0, 0, 2, 2, 0, 0, 0, 5, 9] (5 + 4)) =
        some (Action.stateSwitch 9) := by decide
    have hcons : handlerConsumed [7, 0, 0, 0, 2, 2, 0, 0, 0, 5, 9] (5 + 5)
        (getU8 [7, 0, 0, 0, 2, 2, 0, 0, 0, 5, 9] (5 + 4)) = 1 := by decide
    rw [ha, hcons]
    show Action.stateSwitch 9 ::
      recvCmdAux [7, 0, 0, 0, 2, 2, 0, 0, 0, 5, 9] 11 = _
    rw [recvCmdAux_end (by decide)]
  · simp

/-! ## Claim C4: stopDebugging versus a parked WaitWalkCmd

Two threads act on one `DebuggerClient`: the interpreter thread parked
inside `WaitWalkCmd` (lines 1290-1298) in
`cv.wait(lck, [this]{ return receive_walk_cmd; })`, and the network thread
running `stopDebugging` (lines 1505-1514):

```
current_state = DebugDead; receive_walk_cmd = true; cv.notify_one();
unique_lock lck(mtx); cv.wait(lck, [this]{ return unload; });
```

The released interpreter thread observes `DebugDead`, sets `unload = true`
and throws `debugger_stopped` — and never calls `cv.notify_one()` again;
no other notify of this condition variable exists on any remaining path.
The model below gives each statement one atomic step and gives the
condition variable its standard semantics: a thread blocked inside `wait`
with a false predicate runs again only after some notify arrives (spurious
wakeups are a permission, not a guarantee, and no correctness argument may
rely on them). -/

/-- Program counter of the network thread inside `stopDebugging`. -/
inductive StopPC where
  | setDead
  | setRwc
  | notifyOne
  | waitEnter
  | waiting
  | done
  deriving Repr, DecidableEq

/-- Program counter of the interpreter thread inside the tail of
`WaitWalkCmd`. -/
inductive HookPC where
  | parked
  | notified
  | checkDead
  | setUnload
  | throwStop
  | exited
  deriving Repr, DecidableEq

/-- Joint state of the two threads and the shared fields they touch. -/
structure RvSys where
  current_state : Int
  receive_walk_cmd : Bool
  unload : Bool
  stop : StopPC
  hook : HookPC
  deriving Repr, DecidableEq

/-- Steps of the network thread (`stopDebugging`). -/
def stopMoves (s : RvSys) : List RvSys :=
  match s.stop with
  | StopPC.setDead =>
    [{ s with current_state := DebugDead, stop := StopPC.setRwc }]
  | StopPC.setRwc =>
    [{ s with receive_walk_cmd := true, stop := StopPC.notifyOne }]
  | StopPC.notifyOne =>
    if s.hook = HookPC.parked then
      [{ s with hook := HookPC.notified, stop := StopPC.waitEnter }]
    else
      [{ s with stop := StopPC.waitEnter }]
  | StopPC.waitEnter =>
    if s.unload then [{ s with stop := StopPC.done }]
    else [{ s with stop := StopPC.waiting }]
  | StopPC.waiting => []
  | StopPC.done => []

/-- Steps of the interpreter thread (the post-notify tail of
`WaitWalkCmd`). -/
def hookMoves (s : RvSys) : List RvSys :=
  match s.hook with
  | HookPC.parked => []
  | HookPC.notified =>
    if s.receive_walk_cmd then [{ s with hook := HookPC.checkDead }]
    else [{ s with hook := HookPC.parked }]
  | HookPC.checkDead =>
    if s.current_state = DebugDead then [{ s with hook := HookPC.setUnload }]
    else [{ s with hook := HookPC.exited }]
  | HookPC.setUnload =>
    [{ s with unload := true, hook := HookPC.throwStop }]
  | HookPC.throwStop => [{ s with hook := HookPC.exited }]
  | HookPC.exited => []

/-- Every enabled transition of the joint system. -/
def rvNext (s : RvSys) : List RvSys := stopMoves s ++ hookMoves s

/-- Run the system under an explicit schedule: each entry picks which
enabled transition fires (out-of-range indices leave the state put — never
exercised below). -/
def rvRun (s : RvSys) : List Nat → RvSys
  | [] => s
  | i :: rest => rvRun ((rvNext s).getD i s) rest

/-- `stopDebugging` invoked while the interpreter thread is parked in the
rendezvous: a Breakpoint-suspended session. -/
def rvInit : RvSys :=
  ⟨DebugBreakpoint, false, false, StopPC.setDead, HookPC.parked⟩

/-- The state reached when the scheduler lets `stopDebugging` enter its
`cv.wait(lck, [this]{ return unload; })` before the parked thread resumes:
the parked thread then runs to completion — it observes Dead, sets `unload`,
throws, and unwinds — while the network thread stays blocked. -/
def rvStuck : RvSys :=
  ⟨DebugDead, true, true, StopPC.waiting, HookPC.exited⟩

/-- C4: the code violates the claim.  Under the all-zeros schedule (the
network thread runs until it blocks, then the interpreter thread runs to
completion) the system reaches `rvStuck`, where no transition is enabled at
all — `WaitWalkCmd` set `unload` without any `cv.notify_one()`, so the
`cv.wait` of `stopDebugging` is never woken — and `stopDebugging` has not
returned: it blocks forever rather than within a bounded interval.  (The
parked thread itself does return Dead: `rvStuck.hook = exited` via
`throwStop`.) -/
theorem C4_stopDebugging_deadlock :
    rvRun rvInit [0, 0, 0, 0, 0, 0, 0, 0] = rvStuck ∧
      rvNext rvStuck = [] ∧
      rvStuck.stop = StopPC.waiting ∧
      rvStuck.hook = HookPC.exited ∧
      rvStuck.current_state = DebugDead := by
  refine ⟨by decide, by decide, rfl, rfl, rfl⟩

end SmDebugger
